import Mathlib

/-!
Shallow embedding of the test-reliability core of the
Hackathon-ZohoPlaywrightTypescriptAutomation repository:

* `FlakyTestDetector` (src/core/mcp-server.ts): per-test flakiness scoring,
  history persistence, and the flaky-test detection entry point.
* `SelfHealingLocators` (self-healing-locators.ts): fallback-strategy
  generation and the locator cache.
* `VisualValidator` (src/core/visual-validator.ts): image comparison via the
  pixelmatch algorithm, with ignore-region masking.
* `SmartWaits` (src/core/smart-waits.ts): the geometric-stability wait loop.

JavaScript numbers are modelled as exact rationals (`ℚ`); byte arrays as
`List Nat`; values produced by `JSON.parse` as a `JsonValue` inductive; a
thrown-and-propagated exception as `Except.error`.
-/

set_option autoImplicit false
set_option linter.unusedVariables false

namespace ZohoAuto

/-- Outcome of one recorded test run (`TestResult.status ∈ {passed, failed, skipped}`). -/
inductive TestStatus where
  | passed
  | failed
  | skipped
deriving DecidableEq, Repr

/-- One execution record (`TestResult` in mcp-server.ts). Fields not used by
the scoring path (`error`, `browser`, `os`) are kept for the data model. -/
structure TestResult where
  testName : String
  status : TestStatus
  duration : ℚ
  retryCount : ℚ
  error : Option String := none
  browser : Option String := none
  os : Option String := none
deriving DecidableEq, Repr

/-- The fields of `FlakyTestAnalysis` that the scoring path determines.
The `reasons`/`recommendations` string lists do not feed into `flakyScore`
or `confidence` and are omitted from the embedding. -/
structure FlakyTestAnalysis where
  testName : String
  flakyScore : ℚ
  confidence : ℚ
deriving DecidableEq, Repr

namespace FlakyTestDetector

/-- `calculateConfidence(totalRuns, flakyScore)`:
`runConfidence = Math.min(totalRuns / 10, 1)`;
`scoreConfidence = flakyScore > 0.5 ? 1 : flakyScore * 2`;
result is their average. -/
def calculateConfidence (totalRuns : Nat) (flakyScore : ℚ) : ℚ :=
  let runConfidence := min ((totalRuns : ℚ) / 10) 1
  let scoreConfidence := if (1/2 : ℚ) < flakyScore then 1 else flakyScore * 2
  (runConfidence + scoreConfidence) / 2

/-- The statistical score of `analyzeTestFlakiness`:
`passRate = passedRuns / totalRuns`, `flakyScore = 1 - passRate`. -/
def statisticalFlakyScore (results : List TestResult) : ℚ :=
  let totalRuns : ℚ := results.length
  let passedRuns : ℚ := (results.filter fun r => r.status == TestStatus.passed).length
  1 - passedRuns / totalRuns

/-- `analyzeTestFlakiness(testName, results)` (score path). The AI engine call
is modelled by `aiFlakyScore : Option ℚ`: `none` when the call fails or finds
no entry for this test (then `aiAnalysis.flakyScore || 0` reads `0`), and
`some q` when the returned entry carries score `q`. The report's score is
`Math.max(flakyScore, aiAnalysis.flakyScore || 0)`; `confidence` is computed
from the statistical `flakyScore` variable, before the max. -/
def analyzeTestFlakiness (testName : String) (results : List TestResult)
    (aiFlakyScore : Option ℚ) : FlakyTestAnalysis :=
  let flakyScore := statisticalFlakyScore results
  { testName := testName
    flakyScore := max flakyScore (aiFlakyScore.getD 0)
    confidence := calculateConfidence results.length flakyScore }

/-- A JavaScript value produced by `JSON.parse`. -/
inductive JsonValue where
  | null
  | bool (b : Bool)
  | num (q : ℚ)
  | str (s : String)
  | arr (items : List JsonValue)
  | obj (fields : List (String × JsonValue))
deriving Inhabited

/-- The persisted execution-history file, as `loadTestResults` sees it:
absent, present but not valid JSON, or parsed to a JavaScript value. -/
inductive HistoryFile where
  | missing
  | unparseable
  | parsed (v : JsonValue)

/-- `loadTestResults()`: returns `[]` when the file does not exist, and the
`catch` block returns `[]` when reading or `JSON.parse` throws; otherwise the
parsed value (whatever shape it has) is returned as-is. -/
def loadTestResults : HistoryFile → JsonValue
  | .missing => .arr []
  | .unparseable => .arr []
  | .parsed v => v

/-- Property access `v.name` on a JavaScript value: a lookup on objects
(first matching key), `undefined` (`none`) on everything else. -/
def jsField (v : JsonValue) (name : String) : Option JsonValue :=
  match v with
  | .obj fields => (fields.find? fun f => f.1 == name).map (·.2)
  | _ => none

/-- `for..of` over a JavaScript value: arrays yield their items, strings
yield their characters (as one-character strings); any other value raises
`TypeError: x is not iterable`. -/
def jsIterate : JsonValue → Except String (List JsonValue)
  | .arr items => .ok items
  | .str s => .ok (s.data.map fun c => .str (String.mk [c]))
  | _ => .error "TypeError: value is not iterable"

/-- `Map` key equality (SameValueZero) restricted to values reachable from
`JSON.parse` output: primitives compare by value; two distinct parsed
objects or arrays are distinct references and never compare equal. -/
def keyEq : Option JsonValue → Option JsonValue → Bool
  | none, none => true
  | some .null, some .null => true
  | some (.bool a), some (.bool b) => a == b
  | some (.num a), some (.num b) => a == b
  | some (.str a), some (.str b) => a == b
  | _, _ => false

/-- Append `item` to the group keyed `key`, or create the group (insertion
order preserved, as for a JavaScript `Map`). -/
def groupsInsert (key : Option JsonValue) (item : JsonValue) :
    List (Option JsonValue × List JsonValue) → List (Option JsonValue × List JsonValue)
  | [] => [(key, [item])]
  | (k, items) :: rest =>
    if keyEq k key then (k, items ++ [item]) :: rest
    else (k, items) :: groupsInsert key item rest

/-- `groupBy(array, keyFn)` with `keyFn = r => r.testName`, as used by
`groupResultsByTest`. -/
def groupResultsByTest (items : List JsonValue) :
    List (Option JsonValue × List JsonValue) :=
  items.foldl (fun groups item => groupsInsert (jsField item "testName") item groups) []

/-- `detectFlakyTests()`. It loads the history (never a failure), iterates it
in `groupBy` (`for..of` — a `TypeError` on a non-iterable value propagates
out of the `try`, is logged, and re-thrown by the `catch`), then runs
`analyzeTestFlakiness` per group and keeps the analyses whose `flakyScore`
reaches the threshold. The per-group analysis is abstracted as a function
producing a score and a report value. -/
def detectFlakyTests {α : Type} (flakyThreshold : ℚ)
    (analyze : Option JsonValue → List JsonValue → ℚ × α)
    (file : HistoryFile) : Except String (List α) :=
  match jsIterate (loadTestResults file) with
  | .error e => .error e
  | .ok items =>
    .ok ((groupResultsByTest items).filterMap fun g =>
      let (score, report) := analyze g.1 g.2
      if flakyThreshold ≤ score then some report else none)

/-- `array.push(x)` on a JavaScript value: only arrays have `push`; calling
it on any other loaded value raises a `TypeError`. -/
def jsPush (v : JsonValue) (x : JsonValue) : Except String JsonValue :=
  match v with
  | .arr items => .ok (.arr (items ++ [x]))
  | _ => .error "TypeError: push is not a function"

/-- `saveTestResults(results)`: its `try/catch` swallows any write failure
(modelled by `saveFails`), leaving the file as it was; on success the file
holds the serialized array. -/
def saveTestResults (file : HistoryFile) (saveFails : Bool)
    (results : JsonValue) : HistoryFile :=
  if saveFails then file else .parsed results

/-- `recordTestResult(result)`: load (never throws), `results.push(result)`
(throws on a non-array history — caught, logged, swallowed by the outer
`catch`), then save (write failures swallowed). The returned `Except` is the
call's outcome as the caller sees it. -/
def recordTestResult (file : HistoryFile) (saveFails : Bool)
    (result : JsonValue) : Except String HistoryFile :=
  match jsPush (loadTestResults file) result with
  | .ok results => .ok (saveTestResults file saveFails results)
  | .error _ => .ok file

end FlakyTestDetector

namespace SelfHealingLocators

/-- One step of `description.replace(/\s+/g, '-')`: a run of whitespace
becomes a single hyphen. `sawWs` records whether the previous character was
whitespace (so the rest of the run is dropped). -/
def collapseWs (cs : List Char) : List Char :=
  (cs.foldl
    (fun (st : List Char × Bool) c =>
      if c.isWhitespace then
        (if st.2 then st.1 else st.1 ++ ['-'], true)
      else
        (st.1 ++ [c], false))
    ([], false)).1

/-- JavaScript `String.prototype.trim`: strip leading and trailing
whitespace. -/
def jsTrim (cs : List Char) : List Char :=
  ((cs.dropWhile Char.isWhitespace).reverse.dropWhile Char.isWhitespace).reverse

/-- `sanitizeDescription(description)`:
`.toLowerCase()` then `.replace(/[^a-z0-9\s]/g, '')` then
`.replace(/\s+/g, '-')` then `.trim()`. JavaScript `\s` is modelled by
`Char.isWhitespace`. -/
def sanitizeDescription (description : String) : String :=
  let lowered := description.data.map Char.toLower
  let kept := lowered.filter fun c =>
    (('a' ≤ c && c ≤ 'z') || ('0' ≤ c && c ≤ '9') || c.isWhitespace)
  String.mk (jsTrim (collapseWs kept))

/-- `aiResponse.match(/"([^"]+)"/g)` of `parseAIStrategies`: every maximal
quoted run of one or more non-quote characters, scanned left to right, with
the surrounding quotes stripped (`match.slice(1, -1)`). Implemented as a
one-pass scanner: `inQuote` says an opening quote has been seen and
`current` holds the characters accumulated since it. -/
def extractQuoted (cs : List Char) : List String :=
  (cs.foldl
    (fun (st : List String × Bool × List Char) c =>
      let (acc, inQuote, current) := st
      if inQuote then
        if c = '"' then
          -- an empty group never matches ("([^"]+)" needs one character),
          -- so the regex engine restarts the match at this second quote
          if current = [] then (acc, true, [])
          else (acc ++ [String.mk current], false, [])
        else (acc, true, current ++ [c])
      else
        if c = '"' then (acc, true, []) else (acc, false, []))
    ([], false, [])).1

/-- `parseAIStrategies(aiResponse)`: extract the quoted strings; a response
with no match yields `[]`. -/
def parseAIStrategies (aiResponse : String) : List String :=
  extractQuoted aiResponse.data

/-- `needle` occurs as a contiguous substring of `hay`
(JavaScript `hay.includes(needle)`), on character lists. -/
def containsSub (needle : List Char) : List Char → Bool
  | [] => needle.isEmpty
  | c :: rest => (needle.isPrefixOf (c :: rest)) || containsSub needle rest

/-- `description.toLowerCase().includes(keyword)`. -/
def descIncludes (description keyword : String) : Bool :=
  containsSub keyword.data (description.data.map Char.toLower)

/-- The deterministic part of `generateFallbackStrategies`: the five
attribute/text templates, then the keyword-derived role templates. -/
def structuralStrategies (description : String) : List String :=
  let s := sanitizeDescription description
  let base :=
    ["[data-testid*=\x22" ++ s ++ "\x22]",
     "[aria-label*=\x22" ++ s ++ "\x22]",
     "text=" ++ description,
     "[title*=\x22" ++ s ++ "\x22]",
     "[placeholder*=\x22" ++ s ++ "\x22]"]
  let base := base ++
    (if descIncludes description "button" then ["button", "[role=\x22button\x22]"] else [])
  let base := base ++
    (if descIncludes description "input" || descIncludes description "field" then
      ["input", "[role=\x22textbox\x22]", "[role=\x22searchbox\x22]"] else [])
  base ++ (if descIncludes description "link" then ["a", "[role=\x22link\x22]"] else [])

/-- The AI contribution of `generateFallbackStrategies`: nothing when
`useAI` is false or the engine call throws (`aiResponse = none`); otherwise
the parsed quoted strings, appended after the structural templates. -/
def aiStrategies (useAI : Bool) (aiResponse : Option String) : List String :=
  if useAI then
    match aiResponse with
    | some response => parseAIStrategies response
    | none => []
  else []

/-- `generateFallbackStrategies(description, page, useAI)`. -/
def generateFallbackStrategies (description : String) (useAI : Bool)
    (aiResponse : Option String) : List String :=
  structuralStrategies description ++ aiStrategies useAI aiResponse

/-- `const allStrategies = [...strategies, ...fallbackStrategies]` in
`getLocator`: the generated strategies (structural then AI) with the
caller-supplied fallbacks appended last. -/
def allStrategies (description : String) (useAI : Bool) (aiResponse : Option String)
    (fallbackStrategies : List String) : List String :=
  generateFallbackStrategies description useAI aiResponse ++ fallbackStrategies

/-- Lookup in `locatorCache` (a `Map<string, string>`). -/
def cacheGet (cache : List (String × String)) (key : String) : Option String :=
  (cache.find? fun e => e.1 == key).map (·.2)

/-- `locatorCache.set(key, value)`: overwrite the existing binding in place
or append a new one. -/
def cacheSet (key value : String) : List (String × String) → List (String × String)
  | [] => [(key, value)]
  | e :: rest =>
    if e.1 == key then (key, value) :: rest else e :: cacheSet key value rest

/-- `getLocator(page, description, options)`. The browser probe
(`isElementVisible`, which swallows its own errors and returns a boolean)
is abstracted as `visible : String → Bool`. Returns the winning selector
(`none` models throwing `No working locator found`) together with the cache
after the call. A cached selector is used only when truthy (JavaScript
`if (cachedLocator)`) and still visible; on a cache miss, the strategies are
probed in order and the winner is stored; when nothing works the function
throws without touching the cache. -/
def getLocator (visible : String → Bool) (description : String) (useAI : Bool)
    (aiResponse : Option String) (fallbackStrategies : List String)
    (cache : List (String × String)) : Option String × List (String × String) :=
  let tryAll : Option String × List (String × String) :=
    match (allStrategies description useAI aiResponse fallbackStrategies).find? visible with
    | some winner => (some winner, cacheSet description winner cache)
    | none => (none, cache)
  match cacheGet cache description with
  | some cached => if cached ≠ "" && visible cached then (some cached, cache) else tryAll
  | none => tryAll

end SelfHealingLocators

/-- An exact fraction `num / den`, the model of the JavaScript
floating-point values flowing through the pixelmatch arithmetic (every
value the algorithm produces is an exact small-denominator fraction, so
exact fractions are a faithful model). No normalization is performed;
every denominator constructed by the model is a product of the positive
literals below, so the cross-multiplication comparison functions agree
with the rational order (see `Q.lt_iff_toRat`). -/
structure Q where
  num : Int
  den : Int
deriving DecidableEq, Repr

namespace Q

/-- The integer `n` as a fraction. -/
def ofInt (n : Int) : Q := ⟨n, 1⟩

instance (n : Nat) : OfNat Q n := ⟨ofInt n⟩

/-- The natural `n` as a fraction. -/
def ofNat (n : Nat) : Q := ⟨(n : Int), 1⟩

instance : Add Q := ⟨fun a b => ⟨a.num * b.den + b.num * a.den, a.den * b.den⟩⟩

instance : Sub Q := ⟨fun a b => ⟨a.num * b.den - b.num * a.den, a.den * b.den⟩⟩

instance : Mul Q := ⟨fun a b => ⟨a.num * b.num, a.den * b.den⟩⟩

instance : Neg Q := ⟨fun a => ⟨-a.num, a.den⟩⟩

instance : Div Q := ⟨fun a b => ⟨a.num * b.den, a.den * b.num⟩⟩

/-- `|a|`. -/
def abs (a : Q) : Q := ⟨(a.num.natAbs : Int), (a.den.natAbs : Int)⟩

/-- `a < b`, by cross-multiplication (exact for positive denominators). -/
def lt (a b : Q) : Bool := a.num * b.den < b.num * a.den

/-- `a > b`. -/
def gt (a b : Q) : Bool := lt b a

/-- `a <= b`, by cross-multiplication (exact for positive denominators). -/
def le (a b : Q) : Bool := a.num * b.den ≤ b.num * a.den

/-- `a === b`, by cross-multiplication (exact for nonzero denominators). -/
def eq (a b : Q) : Bool := a.num * b.den = b.num * a.den

/-- The rational value of a fraction. -/
def toRat (a : Q) : ℚ := (a.num : ℚ) / (a.den : ℚ)

end Q

/-- A decoded PNG as `pngjs` presents it: dimensions plus the flat RGBA byte
array (`data[(y * width + x) * 4 + channel]`). -/
structure Image where
  width : Nat
  height : Nat
  data : List Nat

/-- An axis-aligned ignore region `{x, y, width, height}`. -/
structure Region where
  x : Nat
  y : Nat
  width : Nat
  height : Nat

/-- The `VisualComparisonResult` fields the comparison computes (the three
artifact-path strings are filesystem bookkeeping and are omitted). -/
structure VisualComparisonResult where
  passed : Bool
  diff : Q
  threshold : Q
deriving DecidableEq, Repr

namespace Pixelmatch

/-- Byte read `img[i]` as an arithmetic value (the indices used by the
algorithm are in bounds for well-formed data). -/
def byte (img : List Nat) (i : Nat) : Q :=
  Q.ofNat (img.getD i 0)

/-- `blend(c, a) = 255 + (c - 255) * a`: blend onto a white background. -/
def blend (c a : Q) : Q := 255 + (c - 255) * a

/-- `rgb2y(r, g, b) = r * 0.29889531 + g * 0.58662247 + b * 0.11448223`. -/
def rgb2y (r g b : Q) : Q :=
  r * ⟨29889531, 100000000⟩ + g * ⟨58662247, 100000000⟩ + b * ⟨11448223, 100000000⟩

/-- `rgb2i(r, g, b) = r * 0.59597799 - g * 0.27417610 - b * 0.32180189`. -/
def rgb2i (r g b : Q) : Q :=
  r * ⟨59597799, 100000000⟩ - g * ⟨27417610, 100000000⟩ - b * ⟨32180189, 100000000⟩

/-- `rgb2q(r, g, b) = r * 0.21147017 - g * 0.52261711 + b * 0.31114694`. -/
def rgb2q (r g b : Q) : Q :=
  r * ⟨21147017, 100000000⟩ - g * ⟨52261711, 100000000⟩ + b * ⟨31114694, 100000000⟩

/-- Alpha-blend one RGB triple onto white when not fully opaque
(`if (a1 < 255) { a1 /= 255; r1 = blend(r1, a1); ... }`). -/
def blendPixel (r g b a : Q) : Q × Q × Q :=
  if a.lt 255 then
    let a := a / 255
    (blend r a, blend g a, blend b a)
  else (r, g, b)

/-- `colorDelta(img1, img2, k, m, yOnly)`: `0` when the two RGBA quadruples
are byte-identical; otherwise the YIQ color distance
`0.5053·y² + 0.299·i² + 0.1957·q²` (`yOnly` returns just the brightness
difference `y1 - y2`), with the sign of the full delta encoding whether the
pixel brightens or darkens. -/
def colorDelta (img1 img2 : List Nat) (k m : Nat) (yOnly : Bool) : Q :=
  if img1.getD (k + 3) 0 = img2.getD (m + 3) 0 ∧ img1.getD k 0 = img2.getD m 0 ∧
     img1.getD (k + 1) 0 = img2.getD (m + 1) 0 ∧ img1.getD (k + 2) 0 = img2.getD (m + 2) 0 then
    0
  else
    let p1 := blendPixel (byte img1 k) (byte img1 (k+1)) (byte img1 (k+2)) (byte img1 (k+3))
    let p2 := blendPixel (byte img2 m) (byte img2 (m+1)) (byte img2 (m+2)) (byte img2 (m+3))
    let y1 := rgb2y p1.1 p1.2.1 p1.2.2
    let y2 := rgb2y p2.1 p2.2.1 p2.2.2
    if yOnly then y1 - y2
    else
      let i := rgb2i p1.1 p1.2.1 p1.2.2 - rgb2i p2.1 p2.2.1 p2.2.2
      let q := rgb2q p1.1 p1.2.1 p1.2.2 - rgb2q p2.1 p2.2.1 p2.2.2
      let delta := ⟨5053, 10000⟩ * (y1 - y2) * (y1 - y2) + ⟨299, 1000⟩ * i * i +
        ⟨1957, 10000⟩ * q * q
      if y1.gt y2 then -delta else delta

/-- The eight (fewer on a border) neighbours of `(x1, y1)` visited by
`antialiased` and `hasManySiblings`, in loop order (`x` outer, `y` inner,
centre skipped). -/
def neighbors (x1 y1 width height : Nat) : List (Nat × Nat) :=
  let x0 := x1 - 1
  let y0 := y1 - 1
  let x2 := min (x1 + 1) (width - 1)
  let y2 := min (y1 + 1) (height - 1)
  ((List.range' x0 (x2 + 1 - x0)).flatMap fun x =>
    (List.range' y0 (y2 + 1 - y0)).map fun y => (x, y)).filter
    fun p => !(p.1 = x1 && p.2 = y1)

/-- `1` when `(x1, y1)` touches the image border (the loop bounds clip), the
initial value of the `zeroes` counters. -/
def borderBonus (x1 y1 width height : Nat) : Nat :=
  if x1 = x1 - 1 ∨ x1 = min (x1 + 1) (width - 1) ∨
     y1 = y1 - 1 ∨ y1 = min (y1 + 1) (height - 1) then 1 else 0

/-- `hasManySiblings(img, x1, y1, width, height)`: the pixel has more than
two byte-identical neighbours (border positions start the count at one).
The early `return true` is equivalent to comparing the final count. -/
def hasManySiblings (img : List Nat) (x1 y1 width height : Nat) : Bool :=
  let pos := (y1 * width + x1) * 4
  let zeroes := borderBonus x1 y1 width height +
    ((neighbors x1 y1 width height).filter fun p =>
      let pos2 := (p.2 * width + p.1) * 4
      img.getD pos 0 = img.getD pos2 0 ∧ img.getD (pos + 1) 0 = img.getD (pos2 + 1) 0 ∧
      img.getD (pos + 2) 0 = img.getD (pos2 + 2) 0 ∧ img.getD (pos + 3) 0 = img.getD (pos2 + 3) 0).length
  2 < zeroes

/-- The darkest/brightest-neighbour fold of `antialiased`: for each
neighbour's brightness delta (in loop order), zero deltas are counted
elsewhere; otherwise the `else if (delta < min) / else if (delta > max)`
chain updates the extremes and remembers their positions. -/
def minMaxFold (deltas : List ((Nat × Nat) × Q)) :
    Q × (Nat × Nat) × Q × (Nat × Nat) :=
  deltas.foldl
    (fun (st : Q × (Nat × Nat) × Q × (Nat × Nat)) d =>
      if d.2.eq 0 then st
      else if d.2.lt st.1 then (d.2, d.1, st.2.2.1, st.2.2.2)
      else if d.2.gt st.2.2.1 then (st.1, st.2.1, d.2, d.1)
      else st)
    (0, (0, 0), 0, (0, 0))

/-- `antialiased(img, x1, y1, width, height, img2)`: more than two
equal-brightness neighbours means not anti-aliased (the early `return false`
is equivalent to the final count); otherwise the pixel is anti-aliased
exactly when it has both a darker and a brighter neighbour and the darkest
or the brightest of them has many identical siblings in both images. -/
def antialiased (img : List Nat) (x1 y1 width height : Nat) (img2 : List Nat) : Bool :=
  let pos := (y1 * width + x1) * 4
  let deltas := (neighbors x1 y1 width height).map fun p =>
    (p, colorDelta img img pos ((p.2 * width + p.1) * 4) true)
  let zeroes := borderBonus x1 y1 width height +
    (deltas.filter fun d => d.2.eq 0).length
  if 2 < zeroes then false
  else
    let st := minMaxFold deltas
    let mnPos := st.2.1
    let mxPos := st.2.2.2
    if st.1.eq 0 || st.2.2.1.eq 0 then false
    else
      (hasManySiblings img mnPos.1 mnPos.2 width height &&
       hasManySiblings img2 mnPos.1 mnPos.2 width height) ||
      (hasManySiblings img mxPos.1 mxPos.2 width height &&
       hasManySiblings img2 mxPos.1 mxPos.2 width height)

/-- The main-loop body of `pixelmatch` for one pixel: it is counted as a
difference when its color delta exceeds `maxDelta`
(`Math.abs(delta) > maxDelta`) and (with `includeAA` left unset) it is not
detected as anti-aliasing in either image. -/
def countedDiff (img1 img2 : List Nat) (width height x y : Nat)
    (maxDelta : Q) (includeAA : Bool) : Bool :=
  let pos := (y * width + x) * 4
  let delta := colorDelta img1 img2 pos pos false
  if (delta.abs).gt maxDelta then
    if !includeAA && (antialiased img1 x y width height img2 ||
                      antialiased img2 x y width height img1) then
      false
    else true
  else false

/-- `pixelmatch(img1, img2, output, width, height, options)` without the
output drawing: `0` immediately when every pixel is byte-identical,
otherwise the number of counted differing pixels with
`maxDelta = 35215 * threshold²`. -/
def pixelmatchDiff (img1 img2 : List Nat) (width height : Nat)
    (threshold : Q) (includeAA : Bool) : Nat :=
  let len := width * height
  let identical := (List.range len).all fun i =>
    img1.getD (4*i) 0 = img2.getD (4*i) 0 ∧ img1.getD (4*i+1) 0 = img2.getD (4*i+1) 0 ∧
    img1.getD (4*i+2) 0 = img2.getD (4*i+2) 0 ∧ img1.getD (4*i+3) 0 = img2.getD (4*i+3) 0
  if identical then 0
  else
    let maxDelta := 35215 * threshold * threshold
    ((List.range height).flatMap fun y =>
      (List.range width).filter fun x =>
        countedDiff img1 img2 width height x y maxDelta includeAA).length

end Pixelmatch

namespace VisualValidator

open Pixelmatch

/-- Zero the four bytes of the pixel starting at `idx`
(`processed.data[idx] = 0; ... processed.data[idx + 3] = 0`). -/
def zero4 (d : List Nat) (idx : Nat) : List Nat :=
  (((d.set idx 0).set (idx + 1) 0).set (idx + 2) 0).set (idx + 3) 0

/-- The inner loop of `applyIgnoreRegions` for one row `y`:
`for (x = region.x; x < region.x + region.width && x < image.width; x++)`. -/
def zeroRegionRow (width : Nat) (region : Region) (y : Nat) (d : List Nat) : List Nat :=
  (List.range' region.x (min (region.x + region.width) width - region.x)).foldl
    (fun d x => zero4 d ((y * width + x) * 4)) d

/-- The outer loop of `applyIgnoreRegions` for one region:
`for (y = region.y; y < region.y + region.height && y < image.height; y++)`. -/
def zeroRegion (width height : Nat) (region : Region) (d : List Nat) : List Nat :=
  (List.range' region.y (min (region.y + region.height) height - region.y)).foldl
    (fun d y => zeroRegionRow width region y d) d

/-- `applyIgnoreRegions(image, ignoreRegions)`: every pixel of every region
(clipped to the image bounds) has its four RGBA bytes zeroed. -/
def applyIgnoreRegions (image : Image) (ignoreRegions : List Region) : Image :=
  { image with
    data := ignoreRegions.foldl
      (fun d region => zeroRegion image.width image.height region d) image.data }

/-- `compareImages(baselinePath, currentPath, testName, threshold,
ignoreRegions)` on the decoded images: mismatched dimensions fail
immediately with `diff = 1`; otherwise both images are masked, pixelmatch
runs with the call's options (`threshold: threshold` — the same value as
the outer pass/fail bound — and `includeAA` left at its default `false`),
`diffPercentage = diffPixels / (width * height)`, and
`passed = diffPercentage <= threshold`. -/
def compareImages (baseline current : Image) (threshold : Q)
    (ignoreRegions : List Region) : VisualComparisonResult :=
  if baseline.width ≠ current.width ∨ baseline.height ≠ current.height then
    { passed := false, diff := 1, threshold := threshold }
  else
    let processedBaseline := applyIgnoreRegions baseline ignoreRegions
    let processedCurrent := applyIgnoreRegions current ignoreRegions
    let diffPixels := pixelmatchDiff processedBaseline.data processedCurrent.data
      baseline.width baseline.height threshold false
    let diffPercentage := Q.ofNat diffPixels / Q.ofNat (baseline.width * baseline.height)
    { passed := diffPercentage.le threshold
      diff := diffPercentage
      threshold := threshold }

end VisualValidator

namespace SmartWaits

/-- A Playwright bounding box `{x, y, width, height}`; `boundingBox()`
returns `null` (`none`) for detached or hidden elements. -/
structure BoundingBox where
  x : ℚ
  y : ℚ
  width : ℚ
  height : ℚ

/-- The loop-body test of `waitForElementStable`: both boxes non-null and
all four coordinate deltas strictly below one unit. -/
def isStableStep (previousBox currentBox : Option BoundingBox) : Bool :=
  match previousBox, currentBox with
  | some p, some c =>
    |p.x - c.x| < 1 && |p.y - c.y| < 1 &&
    |p.width - c.width| < 1 && |p.height - c.height| < 1
  | _, _ => false

/-- The `(previousBox, stableCount)` state of `waitForElementStable`'s
`while (stableCount < requiredStableChecks)` loop after `n` iterations.
`samples k` is the `boundingBox()` result of the `k`-th call (`samples 0`
is the initial one taken before the loop); a stable pair increments
`stableCount`, anything else resets it to zero. -/
def stableState (samples : Nat → Option BoundingBox) : Nat → Option BoundingBox × Nat
  | 0 => (samples 0, 0)
  | n + 1 =>
    let st := stableState samples n
    let currentBox := samples (n + 1)
    (currentBox, if isStableStep st.1 currentBox then st.2 + 1 else 0)

/-- `waitForElementStable(locator, timeout)` returns (other than through a
thrown browser error): its loop exits after finitely many iterations, which
happens exactly when `stableCount` reaches `requiredStableChecks = 3`. The
`timeout` parameter of the source is accepted here as it is there — the
loop body never reads it. -/
def waitForElementStableReturns (timeout : ℚ)
    (samples : Nat → Option BoundingBox) : Prop :=
  ∃ n, 3 ≤ (stableState samples n).2

/-- An element that moves 10 units right between any two consecutive
bounding-box samples. -/
def movingBox (i : Nat) : Option BoundingBox :=
  some { x := 10 * i, y := 0, width := 20, height := 20 }

end SmartWaits

/-! Concrete fixtures used by witnesses and counterexamples. -/

/-- A passing run of "login test". -/
def passedRun : TestResult :=
  { testName := "login test", status := .passed, duration := 5, retryCount := 0 }

/-- A failing run of "login test". -/
def failedRun : TestResult :=
  { testName := "login test", status := .failed, duration := 5, retryCount := 1 }

/-- A 1×1 all-black opaque image. -/
def blackImg : Image := { width := 1, height := 1, data := [0, 0, 0, 255] }

/-- A 1×1 all-white opaque image. -/
def whiteImg : Image := { width := 1, height := 1, data := [255, 255, 255, 255] }

/-- A 2×1 all-white opaque image (for the dimension-mismatch witness). -/
def wideImg : Image :=
  { width := 2, height := 1, data := [255, 255, 255, 255, 255, 255, 255, 255] }

/-- A 3×3 baseline of gray/black/white pixels (row-major:
gray black white / white black black / black white gray). -/
def maskBaseline : Image :=
  { width := 3, height := 3, data :=
      [128, 128, 128, 255,   0, 0, 0, 255,       255, 255, 255, 255,
       255, 255, 255, 255,   0, 0, 0, 255,       0, 0, 0, 255,
       0, 0, 0, 255,         255, 255, 255, 255, 128, 128, 128, 255] }

/-- A 3×3 current capture (row-major:
black gray white / gray gray white / white gray white). -/
def maskCurrent : Image :=
  { width := 3, height := 3, data :=
      [0, 0, 0, 255,         128, 128, 128, 255, 255, 255, 255, 255,
       128, 128, 128, 255,   128, 128, 128, 255, 255, 255, 255, 255,
       255, 255, 255, 255,   128, 128, 128, 255, 255, 255, 255, 255] }

/-!
## Theorems
-/

namespace FlakyTestDetector

theorem analyzeTestFlakiness_flakyScore (testName : String) (results : List TestResult)
    (aiFlakyScore : Option ℚ) :
    (analyzeTestFlakiness testName results aiFlakyScore).flakyScore
      = max (statisticalFlakyScore results) (aiFlakyScore.getD 0) := rfl

theorem statisticalFlakyScore_replicate_passed (n : Nat) (hn : n ≠ 0) :
    statisticalFlakyScore (List.replicate n passedRun) = 0 := by
  have hp : (passedRun.status == TestStatus.passed) = true := rfl
  rw [statisticalFlakyScore]
  simp only [List.filter_replicate, hp, if_pos, List.length_replicate]
  rw [div_self (by exact_mod_cast hn)]
  ring

theorem statisticalFlakyScore_replicate_failed (n : Nat) (hn : n ≠ 0) :
    statisticalFlakyScore (List.replicate n failedRun) = 1 := by
  have hp : (failedRun.status == TestStatus.passed) = false := rfl
  rw [statisticalFlakyScore]
  simp only [List.filter_replicate, hp, Bool.false_eq_true, if_false,
    List.length_replicate, List.length_nil]
  norm_num

theorem statisticalFlakyScore_mem (results : List TestResult) (h : results ≠ []) :
    0 ≤ statisticalFlakyScore results ∧ statisticalFlakyScore results ≤ 1 := by
  have hlen : 0 < (results.length : ℚ) := by
    exact_mod_cast List.length_pos.mpr h
  have hle : ((results.filter fun r => r.status == TestStatus.passed).length : ℚ)
      ≤ (results.length : ℚ) := by
    exact_mod_cast List.length_filter_le _ results
  have h0 : (0 : ℚ) ≤ ((results.filter fun r => r.status == TestStatus.passed).length : ℚ) := by
    positivity
  unfold statisticalFlakyScore
  constructor
  · have : ((results.filter fun r => r.status == TestStatus.passed).length : ℚ)
        / results.length ≤ 1 := by
      rw [div_le_one hlen]; exact hle
    linarith
  · have : 0 ≤ ((results.filter fun r => r.status == TestStatus.passed).length : ℚ)
        / results.length := by positivity
    linarith

/-- C1: for every non-empty per-test history and every suggestion-capability
outcome, the report's `flakyScore` equals the maximum of the statistical
score `1 - passRate` and the suggestion score (`0` when the capability fails
or returns nothing); in particular, the suggestion capability can never
lower the statistically computed score. (Empty histories never reach
`analyzeTestFlakiness`: `groupBy` creates only non-empty groups.) -/
theorem flakyScore_eq_max_statistical_ai (testName : String) (results : List TestResult)
    (aiFlakyScore : Option ℚ) (h : results ≠ []) :
    (analyzeTestFlakiness testName results aiFlakyScore).flakyScore
      = max (1 - ((results.filter fun r => r.status == TestStatus.passed).length : ℚ)
              / results.length)
          (aiFlakyScore.getD 0)
    ∧ 1 - ((results.filter fun r => r.status == TestStatus.passed).length : ℚ)
          / results.length
        ≤ (analyzeTestFlakiness testName results aiFlakyScore).flakyScore :=
  ⟨rfl, le_max_left _ _⟩

/-- Witness for C1 at a concrete one-run history and suggestion score 1/2. -/
theorem flakyScore_eq_max_statistical_ai_witness :
    (analyzeTestFlakiness "login test" [passedRun] (some (1/2))).flakyScore
      = max (1 - (([passedRun].filter fun r => r.status == TestStatus.passed).length : ℚ)
              / [passedRun].length)
          ((some (1/2) : Option ℚ).getD 0)
    ∧ 1 - (([passedRun].filter fun r => r.status == TestStatus.passed).length : ℚ)
          / [passedRun].length
        ≤ (analyzeTestFlakiness "login test" [passedRun] (some (1/2))).flakyScore :=
  flakyScore_eq_max_statistical_ai "login test" [passedRun] (some (1/2))
    (List.cons_ne_nil _ _)

/-- C2 counterexample: the suggestion-capability score is combined by `max`
without clamping, so a history of ten passed runs together with a
suggestion score of 2 produces `flakyScore = 2`, outside `[0,1]` and not
the claimed `0`. -/
theorem flakyScore_exceeds_one_on_large_ai_score :
    1 < (analyzeTestFlakiness "login test"
          (List.replicate 10 passedRun) (some 2)).flakyScore := by
  rw [analyzeTestFlakiness_flakyScore, statisticalFlakyScore_replicate_passed 10 (by norm_num)]
  norm_num

/-- C2 as amended: whenever the suggestion capability fails, returns
nothing, or returns a score within `[0,1]`, the `flakyScore` of a non-empty
history stays in `[0,1]`; with no suggestion contribution, ten passed runs
score 0 and ten failed runs score 1. -/
theorem flakyScore_in_unit_interval :
    (∀ (testName : String) (results : List TestResult) (aiFlakyScore : Option ℚ),
        results ≠ [] → 0 ≤ aiFlakyScore.getD 0 → aiFlakyScore.getD 0 ≤ 1 →
        0 ≤ (analyzeTestFlakiness testName results aiFlakyScore).flakyScore ∧
        (analyzeTestFlakiness testName results aiFlakyScore).flakyScore ≤ 1)
    ∧ (analyzeTestFlakiness "login test" (List.replicate 10 passedRun) none).flakyScore = 0
    ∧ (analyzeTestFlakiness "login test" (List.replicate 10 failedRun) none).flakyScore = 1 := by
  refine ⟨fun testName results aiFlakyScore h h0 h1 => ?_, ?_, ?_⟩
  · have hs := statisticalFlakyScore_mem results h
    constructor
    · exact le_trans hs.1 (le_max_left _ _)
    · exact max_le hs.2 h1
  · rw [analyzeTestFlakiness_flakyScore, statisticalFlakyScore_replicate_passed 10 (by norm_num)]
    norm_num
  · rw [analyzeTestFlakiness_flakyScore, statisticalFlakyScore_replicate_failed 10 (by norm_num)]
    norm_num

/-- Witness for the amended C2 at a concrete one-run history. -/
theorem flakyScore_in_unit_interval_witness :
    0 ≤ (analyzeTestFlakiness "login test" [passedRun] none).flakyScore ∧
    (analyzeTestFlakiness "login test" [passedRun] none).flakyScore ≤ 1 :=
  flakyScore_in_unit_interval.1 "login test" [passedRun] none
    (List.cons_ne_nil _ _) (by norm_num) (by norm_num)

/-- C10: `recordTestResult` never propagates an error — its `try/catch` and
those of `loadTestResults`/`saveTestResults` swallow every load, push and
save failure — and when the save fails the history file is left exactly as
it was, so the record is silently dropped. -/
theorem recordTestResult_never_throws
    (file : HistoryFile) (saveFails : Bool) (result : JsonValue) :
    (recordTestResult file saveFails result).isOk = true
    ∧ recordTestResult file true result = .ok file := by
  constructor
  · cases h : jsPush (loadTestResults file) result <;>
      simp [recordTestResult, h, Except.isOk, Except.toBool]
  · cases h : jsPush (loadTestResults file) result <;>
      simp [recordTestResult, h, saveTestResults]

/-- C8 counterexample: a history file holding the well-formed JSON `{}`
parses to a non-iterable value; the `TypeError` thrown by `groupBy`'s
`for..of` is caught, logged, and re-thrown by `detectFlakyTests`. -/
theorem detectFlakyTests_throws_on_object_history :
    detectFlakyTests (3/10) (fun _ _ => ((0 : ℚ), ())) (.parsed (.obj []))
      = .error "TypeError: value is not iterable" := rfl

/-- C8 as amended: `detectFlakyTests` returns normally (an array) for a
missing history file, for unparseable JSON, and for every parsed JSON
array — but a parsed value that is not iterable (such as a JSON object)
makes it throw, for every analysis function and threshold. -/
theorem detectFlakyTests_ok_on_missing_unparseable_arrays :
    ∀ (α : Type) (flakyThreshold : ℚ)
      (analyze : Option JsonValue → List JsonValue → ℚ × α),
      detectFlakyTests flakyThreshold analyze .missing = .ok []
      ∧ detectFlakyTests flakyThreshold analyze .unparseable = .ok []
      ∧ (∀ items,
          (detectFlakyTests flakyThreshold analyze (.parsed (.arr items))).isOk = true)
      ∧ (∀ fields,
          (detectFlakyTests flakyThreshold analyze (.parsed (.obj fields))).isOk = false) := by
  intro α flakyThreshold analyze
  refine ⟨rfl, rfl, fun items => ?_, fun fields => ?_⟩
  · simp [detectFlakyTests, loadTestResults, jsIterate, Except.isOk, Except.toBool]
  · simp [detectFlakyTests, loadTestResults, jsIterate, Except.isOk, Except.toBool]

end FlakyTestDetector

namespace SelfHealingLocators

theorem cacheGet_cacheSet_self (key value : String) (cache : List (String × String)) :
    cacheGet (cacheSet key value cache) key = some value := by
  induction cache with
  | nil => simp [cacheGet, cacheSet]
  | cons e rest ih =>
    by_cases h : e.1 = key
    · simp [cacheGet, cacheSet, h]
    · simpa [cacheGet, cacheSet, h] using ih

/-- C3 counterexample: with description `"btn"`, a suggestion response
`"\"#ai\""` and caller fallback `["#submit-btn"]`, the probed sequence puts
the suggestion selector `#ai` before the caller fallback — not after it, as
claimed — and with description `"button"` and caller fallback `["button"]`
the sequence holds the selector `button` twice, so it is not
duplicate-free. -/
theorem strategy_order_counterexample :
    allStrategies "btn" true (some "\"#ai\"") ["#submit-btn"]
      ≠ structuralStrategies "btn" ++ ["#submit-btn"] ++ aiStrategies true (some "\"#ai\"")
    ∧ ¬ (allStrategies "button" true none ["button"]).Nodup :=
  ⟨by decide, by decide⟩

/-- C3 as amended: the candidate sequence probed by `getLocator` is the
structural heuristics first, then the suggestion-capability (AI) selectors,
then every caller-supplied fallback selector last; no deduplication is
performed, so the sequence can contain duplicate selector strings. -/
theorem allStrategies_order (description : String) (useAI : Bool)
    (aiResponse : Option String) (fallbackStrategies : List String) :
    allStrategies description useAI aiResponse fallbackStrategies
      = structuralStrategies description ++ aiStrategies useAI aiResponse
          ++ fallbackStrategies := by
  simp [allStrategies, generateFallbackStrategies]

/-- C4 counterexample: with a cached selector `#old` for "login button"
whose probe fails and no working fallback, `getLocator` throws
(`none`) and the stale entry is still in the cache afterwards — it is not
invalidated before the call returns. -/
theorem stale_cache_retained_on_failed_resolution :
    getLocator (fun _ => false) "login button" true none [] [("login button", "#old")]
      = (none, [("login button", "#old")]) := by
  decide

/-- C4 as amended: when the cached entry's validation probe fails, the
entry is overwritten with the winner if some candidate strategy succeeds,
but when the whole resolution fails the stale entry is retained unchanged —
the cache is only ever updated on success. -/
theorem cache_overwritten_on_success_retained_on_failure
    (visible : String → Bool) (description : String) (useAI : Bool)
    (aiResponse : Option String) (fallbackStrategies : List String)
    (cache : List (String × String)) (cached : String)
    (hc : cacheGet cache description = some cached)
    (hne : cached ≠ "") (hv : visible cached = false) :
    ((getLocator visible description useAI aiResponse fallbackStrategies cache).1 = none →
      (getLocator visible description useAI aiResponse fallbackStrategies cache).2 = cache)
    ∧ ∀ winner,
        (getLocator visible description useAI aiResponse fallbackStrategies cache).1
            = some winner →
          cacheGet (getLocator visible description useAI aiResponse fallbackStrategies cache).2
              description
            = some winner := by
  unfold getLocator
  rw [hc]
  simp only [hne, hv, Bool.and_false, decide_not, Bool.false_eq_true, if_false]
  cases hfind : List.find? visible
      (allStrategies description useAI aiResponse fallbackStrategies) with
  | none =>
    exact ⟨fun _ => rfl, fun winner hw => by simp at hw⟩
  | some w =>
    refine ⟨fun hnone => by simp at hnone, fun winner hw => ?_⟩
    have : w = winner := by simpa using hw
    subst this
    exact cacheGet_cacheSet_self description w cache

/-- Witness for the amended C4: concrete stale entry, failing probe, no
working strategy. -/
theorem cache_overwritten_on_success_retained_on_failure_witness :
    ((getLocator (fun _ => false) "login button" true none [] [("login button", "#old")]).1
        = none →
      (getLocator (fun _ => false) "login button" true none [] [("login button", "#old")]).2
        = [("login button", "#old")])
    ∧ ∀ winner,
        (getLocator (fun _ => false) "login button" true none [] [("login button", "#old")]).1
            = some winner →
          cacheGet
              (getLocator (fun _ => false) "login button" true none []
                [("login button", "#old")]).2
              "login button"
            = some winner :=
  cache_overwritten_on_success_retained_on_failure (fun _ => false) "login button" true none []
    [("login button", "#old")] "#old" (by decide) (by decide) rfl

end SelfHealingLocators

theorem Q.lt_iff_toRat (a b : Q) (ha : 0 < a.den) (hb : 0 < b.den) :
    Q.lt a b = true ↔ a.toRat < b.toRat := by
  have ha' : (0 : ℚ) < (a.den : ℚ) := by exact_mod_cast ha
  have hb' : (0 : ℚ) < (b.den : ℚ) := by exact_mod_cast hb
  unfold Q.lt Q.toRat
  rw [decide_eq_true_iff, div_lt_div_iff₀ ha' hb']
  constructor <;> intro h <;> exact_mod_cast h

theorem Q.le_iff_toRat (a b : Q) (ha : 0 < a.den) (hb : 0 < b.den) :
    Q.le a b = true ↔ a.toRat ≤ b.toRat := by
  have ha' : (0 : ℚ) < (a.den : ℚ) := by exact_mod_cast ha
  have hb' : (0 : ℚ) < (b.den : ℚ) := by exact_mod_cast hb
  unfold Q.le Q.toRat
  rw [decide_eq_true_iff, div_le_div_iff₀ ha' hb']
  constructor <;> intro h <;> exact_mod_cast h

namespace VisualValidator

open Pixelmatch

theorem getD_zero_of_length_le (d : List Nat) (i : Nat) (h : d.length ≤ i) :
    d.getD i 0 = 0 := by
  rw [List.getD_eq_getElem?_getD, List.getElem?_eq_none h]
  rfl

theorem getD_set_self_zero (d : List Nat) (i : Nat) : (d.set i 0).getD i 0 = 0 := by
  by_cases h : i < d.length
  · rw [List.getD_eq_getElem?_getD, List.getElem?_set_self h]
    rfl
  · exact getD_zero_of_length_le _ _ (by simpa [List.length_set] using le_of_not_lt h)

theorem getD_set_ne (d : List Nat) (a i j : Nat) (h : i ≠ j) :
    (d.set i a).getD j 0 = d.getD j 0 := by
  rw [List.getD_eq_getElem?_getD, List.getElem?_set_ne h, ← List.getD_eq_getElem?_getD]

theorem zero4_getD_zero (d : List Nat) (j i : Nat) (h1 : j ≤ i) (h2 : i < j + 4) :
    (zero4 d j).getD i 0 = 0 := by
  unfold zero4
  rcases (by omega : i = j ∨ i = j + 1 ∨ i = j + 2 ∨ i = j + 3) with h | h | h | h <;> subst h
  · rw [getD_set_ne _ _ _ _ (by omega), getD_set_ne _ _ _ _ (by omega),
      getD_set_ne _ _ _ _ (by omega)]
    exact getD_set_self_zero _ _
  · rw [getD_set_ne _ _ _ _ (by omega), getD_set_ne _ _ _ _ (by omega)]
    exact getD_set_self_zero _ _
  · rw [getD_set_ne _ _ _ _ (by omega)]
    exact getD_set_self_zero _ _
  · exact getD_set_self_zero _ _

theorem zero4_preserves_zero (d : List Nat) (j i : Nat) (h : d.getD i 0 = 0) :
    (zero4 d j).getD i 0 = 0 := by
  by_cases hj : j ≤ i ∧ i < j + 4
  · exact zero4_getD_zero d j i hj.1 hj.2
  · unfold zero4
    rw [getD_set_ne _ _ _ _ (by omega), getD_set_ne _ _ _ _ (by omega),
      getD_set_ne _ _ _ _ (by omega), getD_set_ne _ _ _ _ (by omega)]
    exact h

theorem foldl_preserves {α : Type} (P : List Nat → Prop) (g : List Nat → α → List Nat)
    (l : List α) (d : List Nat) (pres : ∀ d a, P d → P (g d a)) (h : P d) :
    P (l.foldl g d) := by
  induction l generalizing d with
  | nil => exact h
  | cons a t ih => exact ih (g d a) (pres d a h)

theorem foldl_establishes {α : Type} (P : List Nat → Prop) (g : List Nat → α → List Nat)
    (l : List α) (d : List Nat) (a : α) (ha : a ∈ l)
    (estab : ∀ d, P (g d a)) (pres : ∀ d b, P d → P (g d b)) : P (l.foldl g d) := by
  obtain ⟨s, t, rfl⟩ := List.append_of_mem ha
  rw [List.foldl_append, List.foldl_cons]
  exact foldl_preserves P g t _ pres (estab _)

theorem zeroRegionRow_preserves_zero (width : Nat) (r : Region) (y i : Nat) (d : List Nat)
    (h : d.getD i 0 = 0) : (zeroRegionRow width r y d).getD i 0 = 0 :=
  foldl_preserves (fun d => d.getD i 0 = 0) _ _ d
    (fun d' x h' => zero4_preserves_zero d' _ i h') h

theorem zeroRegion_preserves_zero (width height : Nat) (r : Region) (i : Nat) (d : List Nat)
    (h : d.getD i 0 = 0) : (zeroRegion width height r d).getD i 0 = 0 :=
  foldl_preserves (fun d => d.getD i 0 = 0) _ _ d
    (fun d' y h' => zeroRegionRow_preserves_zero width r y i d' h') h

theorem zeroRegionRow_getD_zero (width : Nat) (r : Region) (y x k : Nat) (d : List Nat)
    (hx1 : r.x ≤ x) (hx2 : x < r.x + r.width) (hxW : x < width) (hk : k < 4) :
    (zeroRegionRow width r y d).getD ((y * width + x) * 4 + k) 0 = 0 := by
  unfold zeroRegionRow
  refine foldl_establishes _ _ _ _ x ?_ (fun d' => ?_)
    (fun d' b h => zero4_preserves_zero d' _ _ h)
  · rw [List.mem_range'_1]
    omega
  · exact zero4_getD_zero d' _ _ (Nat.le_add_right _ _) (by omega)

theorem zeroRegion_getD_zero (width height : Nat) (r : Region) (x y k : Nat) (d : List Nat)
    (hx1 : r.x ≤ x) (hx2 : x < r.x + r.width) (hxW : x < width)
    (hy1 : r.y ≤ y) (hy2 : y < r.y + r.height) (hyH : y < height) (hk : k < 4) :
    (zeroRegion width height r d).getD ((y * width + x) * 4 + k) 0 = 0 := by
  unfold zeroRegion
  refine foldl_establishes _ _ _ _ y ?_
    (fun d' => zeroRegionRow_getD_zero width r y x k d' hx1 hx2 hxW hk)
    (fun d' b h => zeroRegionRow_preserves_zero width r b _ d' h)
  rw [List.mem_range'_1]
  omega

theorem applyIgnoreRegions_getD_zero (image : Image) (regions : List Region) (r : Region)
    (hr : r ∈ regions) (x y k : Nat)
    (hx1 : r.x ≤ x) (hx2 : x < r.x + r.width) (hxW : x < image.width)
    (hy1 : r.y ≤ y) (hy2 : y < r.y + r.height) (hyH : y < image.height) (hk : k < 4) :
    (applyIgnoreRegions image regions).data.getD ((y * image.width + x) * 4 + k) 0 = 0 := by
  unfold applyIgnoreRegions
  exact foldl_establishes _ _ _ _ r hr
    (fun d' => zeroRegion_getD_zero image.width image.height r x y k d'
      hx1 hx2 hxW hy1 hy2 hyH hk)
    (fun d' b h => zeroRegion_preserves_zero image.width image.height b _ d' h)

/-- C5: whenever the two decoded images disagree in width or height,
`compareImages` returns normally with `passed = false` and `diff = 1`, for
every threshold and ignore-region list. -/
theorem dimension_mismatch_fails_with_diff_one
    (baseline current : Image) (threshold : Q) (ignoreRegions : List Region)
    (h : baseline.width ≠ current.width ∨ baseline.height ≠ current.height) :
    compareImages baseline current threshold ignoreRegions
      = { passed := false, diff := 1, threshold := threshold } := by
  unfold compareImages
  rw [if_pos h]

/-- Witness for C5 at a 1×1 baseline against a 2×1 capture. -/
theorem dimension_mismatch_fails_with_diff_one_witness :
    compareImages blackImg wideImg ((1 : Q) / 2) []
      = { passed := false, diff := 1, threshold := (1 : Q) / 2 } :=
  dimension_mismatch_fails_with_diff_one blackImg wideImg ((1 : Q) / 2) []
    (Or.inl (by decide))

/-- C9 counterexample: for the same 1×1 black/white image pair, the
threshold option changes which pixels count as differing — `diffRatio` is
`1` at threshold `0.1` but `0` at threshold `1` — because `compareImages`
hands the very same `threshold` to pixelmatch as its per-pixel
color-distance sensitivity. -/
theorem diff_pixels_depend_on_threshold :
    (compareImages blackImg whiteImg ((1 : Q) / 10) []).diff = 1
    ∧ (compareImages blackImg whiteImg 1 []).diff = 0 :=
  ⟨by decide, by decide⟩

/-- C9 as amended: the per-pixel color-distance sensitivity is not a
distinct parameter — `compareImages` passes its pass/fail `threshold`
option straight to pixelmatch as the sensitivity (so the differing-pixel
set may vary with the threshold option), and the final verdict compares the
resulting ratio against that same threshold. -/
theorem threshold_is_pixel_sensitivity
    (baseline current : Image) (threshold : Q) (regions : List Region)
    (hw : baseline.width = current.width) (hh : baseline.height = current.height) :
    (compareImages baseline current threshold regions).diff
      = Q.ofNat
          (pixelmatchDiff (applyIgnoreRegions baseline regions).data
            (applyIgnoreRegions current regions).data baseline.width baseline.height
            threshold false)
          / Q.ofNat (baseline.width * baseline.height)
    ∧ (compareImages baseline current threshold regions).passed
        = ((compareImages baseline current threshold regions).diff).le threshold := by
  unfold compareImages
  rw [if_neg (by push_neg; exact ⟨hw, hh⟩)]
  exact ⟨rfl, rfl⟩

/-- Witness for the amended C9 at the 1×1 black/white pair. -/
theorem threshold_is_pixel_sensitivity_witness :
    (compareImages blackImg whiteImg ((1 : Q) / 10) []).diff
      = Q.ofNat
          (pixelmatchDiff (applyIgnoreRegions blackImg []).data
            (applyIgnoreRegions whiteImg []).data blackImg.width blackImg.height
            ((1 : Q) / 10) false)
          / Q.ofNat (blackImg.width * blackImg.height)
    ∧ (compareImages blackImg whiteImg ((1 : Q) / 10) []).passed
        = ((compareImages blackImg whiteImg ((1 : Q) / 10) []).diff).le ((1 : Q) / 10) :=
  threshold_is_pixel_sensitivity blackImg whiteImg ((1 : Q) / 10) [] rfl rfl

/-- C6 counterexample: masking can raise the diff ratio. For this 3×3 pair
at threshold `0.1`, the unmasked comparison counts 6 differing pixels (two
corners are classified as anti-aliasing and skipped), but masking the
centre pixel changes the corners' neighbourhoods so they no longer count as
anti-aliased: the masked diff ratio is `7/9 > 6/9`. -/
theorem ignore_region_can_increase_diff :
    Q.lt (compareImages maskBaseline maskCurrent ((1 : Q) / 10) []).diff
        (compareImages maskBaseline maskCurrent ((1 : Q) / 10)
          [{ x := 1, y := 1, width := 1, height := 1 }]).diff = true := by
  decide

/-- C6 as amended: `applyIgnoreRegions` zeroes all four RGBA bytes of every
region pixel in both images, and such a pixel is never counted as a
difference by the masked comparison (its color delta is `0`, which never
exceeds `maxDelta = 35215·threshold² ≥ 0`); however, the overall diff ratio
may still increase, because masking can change the anti-aliasing
classification of pixels outside the regions (see the counterexample). -/
theorem masked_pixels_never_counted
    (baseline current : Image) (threshold : Q) (regions : List Region) (r : Region)
    (hr : r ∈ regions) (hw : current.width = baseline.width) (x y : Nat)
    (hx1 : r.x ≤ x) (hx2 : x < r.x + r.width) (hxW : x < baseline.width)
    (hy1 : r.y ≤ y) (hy2 : y < r.y + r.height)
    (hyB : y < baseline.height) (hyC : y < current.height) :
    (∀ k, k < 4 →
      (applyIgnoreRegions baseline regions).data.getD ((y * baseline.width + x) * 4 + k) 0 = 0
      ∧ (applyIgnoreRegions current regions).data.getD ((y * baseline.width + x) * 4 + k) 0 = 0)
    ∧ countedDiff (applyIgnoreRegions baseline regions).data
        (applyIgnoreRegions current regions).data baseline.width baseline.height x y
        (35215 * threshold * threshold) false = false := by
  have hbase : ∀ k, k < 4 →
      (applyIgnoreRegions baseline regions).data.getD
        ((y * baseline.width + x) * 4 + k) 0 = 0 :=
    fun k hk => applyIgnoreRegions_getD_zero baseline regions r hr x y k
      hx1 hx2 hxW hy1 hy2 hyB hk
  have hcur : ∀ k, k < 4 →
      (applyIgnoreRegions current regions).data.getD
        ((y * baseline.width + x) * 4 + k) 0 = 0 := by
    intro k hk
    have := applyIgnoreRegions_getD_zero current regions r hr x y k
      hx1 hx2 (hw ▸ hxW) hy1 hy2 hyC hk
    rwa [hw] at this
  refine ⟨fun k hk => ⟨hbase k hk, hcur k hk⟩, ?_⟩
  have h0b : (applyIgnoreRegions baseline regions).data.getD ((y * baseline.width + x) * 4) 0
      = 0 := by simpa using hbase 0 (by omega)
  have h0c : (applyIgnoreRegions current regions).data.getD ((y * baseline.width + x) * 4) 0
      = 0 := by simpa using hcur 0 (by omega)
  have hδ : colorDelta (applyIgnoreRegions baseline regions).data
      (applyIgnoreRegions current regions).data
      ((y * baseline.width + x) * 4) ((y * baseline.width + x) * 4) false = 0 := by
    unfold colorDelta
    rw [if_pos]
    exact ⟨by rw [hbase 3 (by omega), hcur 3 (by omega)],
      by rw [h0b, h0c],
      by rw [hbase 1 (by omega), hcur 1 (by omega)],
      by rw [hbase 2 (by omega), hcur 2 (by omega)]⟩
  have habs : Q.gt (Q.abs 0) (35215 * threshold * threshold) = false := by
    apply decide_eq_false
    show ¬ ((35215 * threshold * threshold).num * (Q.abs 0).den
      < (Q.abs 0).num * (35215 * threshold * threshold).den)
    have hnum : (35215 * threshold * threshold).num
        = 35215 * threshold.num * threshold.num := rfl
    have habs0 : (Q.abs 0).num = 0 ∧ (Q.abs 0).den = 1 := ⟨rfl, rfl⟩
    rw [hnum, habs0.1, habs0.2, mul_one, zero_mul, not_lt]
    have : (35215 : Int) * threshold.num * threshold.num
        = 35215 * (threshold.num * threshold.num) := by ring
    rw [this]
    exact mul_nonneg (by norm_num) (mul_self_nonneg _)
  unfold countedDiff
  dsimp only
  rw [hδ, habs]
  simp

/-- Witness for the amended C6: the centre pixel of the 3×3 pair under the
centre ignore region. -/
theorem masked_pixels_never_counted_witness :
    (∀ k, k < 4 →
      (applyIgnoreRegions maskBaseline
          [{ x := 1, y := 1, width := 1, height := 1 }]).data.getD
        ((1 * maskBaseline.width + 1) * 4 + k) 0 = 0
      ∧ (applyIgnoreRegions maskCurrent
          [{ x := 1, y := 1, width := 1, height := 1 }]).data.getD
        ((1 * maskBaseline.width + 1) * 4 + k) 0 = 0)
    ∧ countedDiff
        (applyIgnoreRegions maskBaseline [{ x := 1, y := 1, width := 1, height := 1 }]).data
        (applyIgnoreRegions maskCurrent [{ x := 1, y := 1, width := 1, height := 1 }]).data
        maskBaseline.width maskBaseline.height 1 1
        (35215 * ((1 : Q) / 10) * ((1 : Q) / 10)) false = false :=
  masked_pixels_never_counted maskBaseline maskCurrent ((1 : Q) / 10)
    [{ x := 1, y := 1, width := 1, height := 1 }]
    { x := 1, y := 1, width := 1, height := 1 }
    (List.mem_singleton.mpr rfl) rfl 1 1
    (by decide) (by decide) (by decide) (by decide) (by decide) (by decide) (by decide)

end VisualValidator

namespace SmartWaits

theorem stableState_fst (samples : Nat → Option BoundingBox) (n : Nat) :
    (stableState samples n).1 = samples n := by
  cases n <;> rfl

/-- C7 (code bug): `waitForElementStable` accepts a `timeout` parameter but
its loop never reads it, so for an element whose bounding box moves 10
units between consecutive samples the stable counter stays at zero after
every iteration and the loop never exits — the call does not return when
the timeout elapses, it hangs. -/
theorem waitForElementStable_hangs_on_moving_element (timeout : ℚ) :
    (∀ n, (stableState movingBox n).2 = 0)
    ∧ ¬ waitForElementStableReturns timeout movingBox := by
  have hstep : ∀ n, isStableStep (movingBox n) (movingBox (n + 1)) = false := by
    intro n
    unfold isStableStep movingBox
    have hx : (10 : ℚ) * n - 10 * (n + 1 : Nat) = -10 := by push_cast; ring
    simp only [hx]
    norm_num
  have hall : ∀ n, (stableState movingBox n).2 = 0 := by
    intro n
    induction n with
    | zero => rfl
    | succ n ih =>
      show (stableState movingBox (n + 1)).2 = 0
      simp only [stableState]
      rw [stableState_fst, hstep n]
      simp
  refine ⟨hall, ?_⟩
  rintro ⟨n, hn⟩
  rw [hall n] at hn
  omega

end SmartWaits

end ZohoAuto
